import Mathlib

/-!
Verification of the data-reduction and curve-fitting module `covid19.py`
(functions `get_data`, `clean_data`, `compare`, `fit`) against its
natural-language specification.

The embedding is shallow: a pandas DataFrame produced by `get_data` is a
list of rows with the five normalized fields; `clean_data`'s pipeline
(country filter, group-by-date summation, derived Active column,
per-metric threshold, `drop_duplicates`, optional last-minute append) is
translated operation by operation; `fit`'s call into
`scipy.optimize.curve_fit` is modelled by an abstract optimizer argument
together with the input validation scipy performs before iterating, and
`fit`'s file side effect is tracked as the list of paths written.
Dates are represented by natural numbers (timestamps are totally ordered
and only compared for equality/order here); metric values are integers
for the reduction stage and rationals for the fitting stage.
-/

namespace Covid19

/-- One row of the normalized table returned by `get_data`: a date, a
country label, and the three raw cumulative counts. -/
structure Row where
  date : Nat
  country : String
  confirmed : Int
  deaths : Int
  recovered : Int
deriving DecidableEq, Repr

/-- The normalized table (output of `get_data`, input of `clean_data`). -/
abbrev Table := List Row

/-- Python truthiness of the `country` argument at line 49 of covid19.py
(`if country:`): `None` and the empty string are falsy, every other
string is truthy. -/
def countryTruthy : Option String → Bool
  | none => false
  | some s => !(s == "")

/-- Line 49-50: `data = data[data['Country'] == country]` — keep only the
rows whose Country equals the given label, and only when the argument is
truthy. -/
def applyCountryFilter (c : Option String) (t : Table) : Table :=
  if countryTruthy c then t.filter (fun r => r.country == c.getD "") else t

/-- Insert a date into a sorted duplicate-free list, keeping it sorted and
duplicate-free (used to model the group keys of `groupby('Date')`,
which pandas returns sorted in ascending order). -/
def insertDate (x : Nat) : List Nat → List Nat
  | [] => [x]
  | y :: ys =>
    if x = y then y :: ys
    else if x < y then x :: y :: ys
    else y :: insertDate x ys

/-- The distinct dates of a table, in ascending order: the index of
`data.groupby('Date').sum()`. -/
def sortedDates (t : Table) : List Nat :=
  (t.map Row.date).foldr insertDate []

/-- One row of the aggregated table `data.groupby('Date').sum()`:
per-date sums of the three numeric columns. -/
structure Agg where
  date : Nat
  confirmed : Int
  deaths : Int
  recovered : Int
deriving DecidableEq, Repr

/-- Per-date column sum used by `groupby('Date').sum()`. -/
def sumAt (f : Row → Int) (t : Table) (d : Nat) : Int :=
  ((t.filter (fun r => r.date == d)).map f).sum

/-- Line 52: `data = data.groupby('Date').sum()` — group rows by date
(keys sorted ascending) and sum each numeric column within a date. -/
def groupbySum (t : Table) : List Agg :=
  (sortedDates t).map (fun d =>
    ⟨d, sumAt Row.confirmed t d, sumAt Row.deaths t d, sumAt Row.recovered t d⟩)

/-- A row of the aggregated table after line 54 added the derived
`Active` column. -/
structure Agg4 where
  date : Nat
  confirmed : Int
  deaths : Int
  recovered : Int
  active : Int
deriving DecidableEq, Repr

/-- Line 54: `data['Active'] = data['Confirmed'] - data['Deaths'] -
data['Recovered']`. -/
def addActive (a : Agg) : Agg4 :=
  ⟨a.date, a.confirmed, a.deaths, a.recovered,
    a.confirmed - a.deaths - a.recovered⟩

/-- The aggregated table with the Active column, as `clean_data` holds it
after line 54: country filter, then group-by-date sum, then the derived
column. -/
def aggregate (t : Table) (c : Option String) : List Agg4 :=
  (groupbySum (applyCountryFilter c t)).map addActive

/-- A pandas Series: index (dates) paired with values, in storage order. -/
abbrev Series := List (Nat × Int)

/-- Model of `Series.drop_duplicates()` with the default `keep='first'`: drop every
entry whose value was already seen earlier; the accumulator holds the
values seen so far. -/
def dropDuplicatesAux : List (Nat × Int) → List Int → List (Nat × Int)
  | [], _ => []
  | p :: ps, seen =>
    if p.2 ∈ seen then dropDuplicatesAux ps seen
    else p :: dropDuplicatesAux ps (p.2 :: seen)

/-- Lines 56-58 right half: `.drop_duplicates()` on a value series. -/
def dropDuplicates (l : List (Nat × Int)) : Series :=
  dropDuplicatesAux l []

/-- Lines 56-58 left half: `data.loc[data[col] >= threshold[i], col]` —
the (date, value) pairs of one metric whose value meets the threshold. -/
def thresholdSeries (f : Agg4 → Int) (l : List Agg4) (θ : Int) : List (Nat × Int) :=
  ((l.filter (fun a => decide (θ ≤ f a))).map (fun a => (a.date, f a)))

/-- Assignment `series[key] = value` on a pandas Series: overwrite when the key is
already in the index, otherwise append a new final entry (lines 61-63). -/
def setItem (s : Series) (d : Nat) (v : Int) : Series :=
  if s.any (fun p => p.1 == d) then
    s.map (fun p => if p.1 == d then (d, v) else p)
  else s ++ [(d, v)]

/-- Function `clean_data(data, country, threshold, lastminute)` (covid19.py lines
34-65). `now` stands for the value of `pd.datetime.now()` at the call.
Returns the three filtered series (confirmed, deaths, active). -/
def clean_data (data : Table) (country : Option String)
    (threshold : Option (Int × Int × Int))
    (lastminute : Option (Int × Int × Int)) (now : Nat) :
    Series × Series × Series :=
  -- lines 46-47: `if threshold is None: threshold = [0, 0, 0]`
  let θ := threshold.getD (0, 0, 0)
  let agg := aggregate data country
  let confirmed := dropDuplicates (thresholdSeries Agg4.confirmed agg θ.1)
  let deaths := dropDuplicates (thresholdSeries Agg4.deaths agg θ.2.1)
  let active := dropDuplicates (thresholdSeries Agg4.active agg θ.2.2)
  -- lines 60-63: `if lastminute:` — a 3-tuple is always truthy in Python
  match lastminute with
  | none => (confirmed, deaths, active)
  | some lm =>
    (setItem confirmed now lm.1,
     setItem deaths now lm.2.1,
     setItem active now (lm.1 - lm.2.1 - lm.2.2))

/-! ### Column-level model of `get_data` (covid19.py lines 7-31)

Claim C6 is about the column set of the returned table, so `get_data` is
embedded at the level of the header: the source's list of column names is
mapped through the rename dict of lines 28-29. `pandas.DataFrame.rename`
renames labels and keeps every column, renamed or not. -/

/-- The five column-name parameters of `get_data` (defaults at line 7-8). -/
structure Labels where
  date : String
  country : String
  confirmed : String
  deaths : String
  recovered : String
deriving DecidableEq, Repr

/-- Default labels of `get_data`. -/
def defaultLabels : Labels :=
  ⟨"Date", "Country", "Confirmed", "Deaths", "Recovered"⟩

/-- Rename one column name through the dict of lines 28-29. A name that is
not a key of the dict is returned unchanged (pandas `rename` never drops a
column). On duplicate keys in the dict literal the later entry wins, so
matching is tried from the last entry backwards. -/
def renameColumn (L : Labels) (s : String) : String :=
  if s == L.recovered then "Recovered"
  else if s == L.deaths then "Deaths"
  else if s == L.confirmed then "Confirmed"
  else if s == L.country then "Country"
  else if s == L.date then "Date"
  else s

/-- The column names of the table `get_data` returns, as a function of the
source's column names: `df.rename({...}, axis=1)` maps every column name
through the dict and keeps all columns. -/
def get_data_columns (src : List String) (L : Labels) : List String :=
  src.map (renameColumn L)

/-! ### Object-identity model of `clean_data` (claim C9)

Python assignment `data = expr` rebinds the local name; the one in-place
mutation in `clean_data` is the column assignment of line 54. To settle the
frame claim the pipeline is replayed over an explicit heap of DataFrame
objects: the caller's table is the object at address 0, boolean-mask
selection (line 50) and `groupby(...).sum()` (line 52) each allocate a new
object, and line 54 mutates the object the local name is bound to at that
point. -/

/-- A heap-allocated DataFrame in one of the shapes the pipeline produces. -/
inductive DFObj where
  | raw : Table → DFObj
  | agg : List Agg → DFObj
  | agg4 : List Agg4 → DFObj
deriving DecidableEq, Repr

/-- The heap: objects indexed by their address. -/
abbrev Heap := List DFObj

/-- Allocate a fresh object; returns the new heap and the fresh address. -/
def alloc (h : Heap) (v : DFObj) : Heap × Nat := (h ++ [v], h.length)

/-- Read a raw table from the heap. -/
def rawAt (h : Heap) (i : Nat) : Table :=
  match h.getD i (DFObj.raw []) with
  | DFObj.raw t => t
  | _ => []

/-- Read an aggregated table from the heap. -/
def aggAt (h : Heap) (i : Nat) : List Agg :=
  match h.getD i (DFObj.agg []) with
  | DFObj.agg l => l
  | _ => []

/-- Read an aggregated table with the Active column from the heap. -/
def agg4At (h : Heap) (i : Nat) : List Agg4 :=
  match h.getD i (DFObj.agg4 []) with
  | DFObj.agg4 l => l
  | _ => []

/-- Replay of `clean_data` with explicit object identity: returns the final
heap (address 0 holds the caller's table object) together with the three
series. Lines 49-50 and 52 allocate new objects; line 54 mutates, in place,
the object the local name `data` is bound to after line 52. -/
def clean_data_heap (data : Table) (country : Option String)
    (threshold : Option (Int × Int × Int))
    (lastminute : Option (Int × Int × Int)) (now : Nat) :
    Heap × (Series × Series × Series) :=
  let θ := threshold.getD (0, 0, 0)
  let h0 : Heap := [DFObj.raw data]
  let s1 := if countryTruthy country then
      alloc h0 (DFObj.raw ((rawAt h0 0).filter (fun r => r.country == country.getD "")))
    else (h0, 0)
  let s2 := alloc s1.1 (DFObj.agg (groupbySum (rawAt s1.1 s1.2)))
  let h3 := s2.1.set s2.2 (DFObj.agg4 ((aggAt s2.1 s2.2).map addActive))
  let agg := agg4At h3 s2.2
  let confirmed := dropDuplicates (thresholdSeries Agg4.confirmed agg θ.1)
  let deaths := dropDuplicates (thresholdSeries Agg4.deaths agg θ.2.1)
  let active := dropDuplicates (thresholdSeries Agg4.active agg θ.2.2)
  match lastminute with
  | none => (h3, (confirmed, deaths, active))
  | some lm =>
    (h3,
     (setItem confirmed now lm.1,
      setItem deaths now lm.2.1,
      setItem active now (lm.1 - lm.2.1 - lm.2.2)))

/-! ### Model of `fit` (covid19.py lines 118-175)

Values are rationals. The call into `scipy.optimize.curve_fit` is embedded
as an abstract optimizer argument plus the argument validation scipy
performs before any optimization step: with bounds present,
`least_squares` raises ValueError when some lower bound is not strictly
below its upper bound, and raises ValueError when a supplied initial guess
`p0` lies outside the bounds; only then does it iterate. An exception
raised at line 141 propagates out of `fit`, so the figure of line 174 is
never written in that case; the file side effect is tracked as the list of
paths written. When no guess is supplied the optimizer picks its own
start, which is not validated here. -/

/-- A model function as `fit` expects: day-offset and parameter vector to
predicted value. -/
abbrev Model := ℚ → List ℚ → ℚ

/-- An abstract bounded-least-squares optimizer standing for the iterative
core of `scipy.optimize.curve_fit`: model, abscissae, ordinates, lower and
upper bounds, optional initial guess, returning a parameter vector. -/
abbrev Optimizer :=
  Model → List ℚ → List ℚ → List ℚ → List ℚ → Option (List ℚ) → List ℚ

/-- Errors `fit` can surface from scipy. -/
inductive FitError where
  | valueError : String → FitError
  | runtimeError : String → FitError
deriving DecidableEq, Repr

/-- Validation scipy applies to the bounds: equal lengths and every lower
bound strictly below its upper bound. -/
def boundsOk (lb ub : List ℚ) : Bool :=
  lb.length == ub.length &&
    (lb.zip ub).all (fun p => decide (p.1 < p.2))

/-- Validation scipy applies to a supplied initial guess: right length and
every coordinate inside its box. An absent guess is not validated. -/
def guessOk (lb ub : List ℚ) : Option (List ℚ) → Bool
  | none => true
  | some g =>
    g.length == lb.length &&
      (g.zip (lb.zip ub)).all
        (fun x => decide (x.2.1 ≤ x.1) && decide (x.1 ≤ x.2.2))

/-- Model of `optimize.curve_fit(model, days, values, p0=guess,
bounds=(lbounds, gbounds))[0]` at line 141: validate, then run the
optimizer. -/
def curve_fit (opt : Optimizer) (model : Model) (xs ys : List ℚ)
    (guess : Option (List ℚ)) (lb ub : List ℚ) : Except FitError (List ℚ) :=
  if !(boundsOk lb ub) then
    .error (.valueError "Each lower bound must be strictly less than each upper bound.")
  else if !(guessOk lb ub guess) then
    .error (.valueError "x0 is infeasible")
  else
    .ok (opt model xs ys lb ub guess)

/-- Line 138: the output path is the route plus the lowercased,
space-to-underscore title plus the png extension. -/
def slugRoute (route title : String) : String :=
  route ++ (title.toLower.replace " " "_") ++ ".png"

/-- Line 140: `days = np.arange(0, len(values))` — the integer day-offsets
0..n-1 at which the model is evaluated against the series values. -/
def fitDays (values : List (Nat × ℚ)) : List ℚ :=
  (List.range values.length).map (fun i => (i : ℚ))

/-- Function `fit(values, model, lbounds, gbounds, guess, route, title, ...)`
(lines 118-175), with the iterative solver abstracted as `opt`. Returns the
result of line 175 (the fitted vector, or the propagated error) paired with
the list of image paths written: line 174 saves one figure, and only after
line 141 returned. -/
def fit (opt : Optimizer) (values : List (Nat × ℚ)) (model : Model)
    (lbounds gbounds : List ℚ) (guess : Option (List ℚ))
    (route title : String) : Except FitError (List ℚ) × List String :=
  let path := slugRoute route title
  match curve_fit opt model (fitDays values) (values.map Prod.snd) guess lbounds gbounds with
  | .error e => (.error e, [])
  | .ok sol => (.ok sol, [path])

/-- Sum of squared residuals between the model at the given abscissae and
the observed values, as `curve_fit` minimizes it. -/
def sse (model : Model) (xs ys : List ℚ) (p : List ℚ) : ℚ :=
  ((xs.zip ys).map (fun v => (model v.1 p - v.2) ^ 2)).sum

/-- A parameter vector lies in the box: right length and every coordinate
between its lower and upper bound. -/
def inBox (p lb ub : List ℚ) : Bool :=
  p.length == lb.length && p.length == ub.length &&
    (p.zip (lb.zip ub)).all
      (fun x => decide (x.2.1 ≤ x.1) && decide (x.1 ≤ x.2.2))

/-- What the spec requires of one metric's filtered output relative to the
thresholded (date, value) sequence it was built from: every value meets
the threshold, the output is a subsequence (original order preserved), each
retained entry is the first occurrence of its value, and no value repeats. -/
def filteredMetricSpec (θ : Int) (filtered out : List (Nat × Int)) : Prop :=
  (∀ p ∈ out, θ ≤ p.2) ∧
  out.Sublist filtered ∧
  (∀ p ∈ out, filtered.find? (fun q => q.2 == p.2) = some p) ∧
  (out.map Prod.snd).Nodup

/-- Scenario table of the spec: one region, value sequence
[10, 10, 20, 30, 30] over five consecutive dates. -/
def dupTable : Table :=
  [⟨0, "A", 10, 0, 0⟩, ⟨1, "A", 10, 0, 0⟩, ⟨2, "A", 20, 0, 0⟩,
   ⟨3, "A", 30, 0, 0⟩, ⟨4, "A", 30, 0, 0⟩]

/-- Scenario table of the spec: two regions A and B over the same three
dates, with per-date confirmed values (10, 5), (20, 15), (30, 25). -/
def twoRegionTable : Table :=
  [⟨1, "A", 10, 0, 0⟩, ⟨1, "B", 5, 0, 0⟩,
   ⟨2, "A", 20, 0, 0⟩, ⟨2, "B", 15, 0, 0⟩,
   ⟨3, "A", 30, 0, 0⟩, ⟨3, "B", 25, 0, 0⟩]

/-- A concrete optimizer used to exhibit the fit theorems at a concrete
input: it always returns the vector [0]. -/
def zeroOpt : Optimizer := fun _ _ _ _ _ _ => [0]

/-- A concrete one-parameter model used to exhibit the fit theorems at a
concrete input: the constant function at the first parameter. -/
def constModel : Model := fun _ p => p.headD 0

/-! ### Helper lemmas about the reduction pipeline -/

/-- Dropping duplicates yields a subsequence of the input. -/
theorem dropDuplicatesAux_sublist :
    ∀ (l : List (Nat × Int)) (seen : List Int),
      (dropDuplicatesAux l seen).Sublist l := by
  intro l
  induction l with
  | nil => intro seen; simp [dropDuplicatesAux]
  | cons p ps ih =>
    intro seen
    by_cases h : p.2 ∈ seen
    · simp only [dropDuplicatesAux]
      rw [if_pos h]
      exact (ih seen).cons p
    · simp only [dropDuplicatesAux]
      rw [if_neg h]
      exact (ih (p.2 :: seen)).cons₂ p

/-- An entry of the deduplicated list comes from the input and its value
was not among the already-seen values. -/
theorem mem_dropDuplicatesAux :
    ∀ (l : List (Nat × Int)) (seen : List Int) (p : Nat × Int),
      p ∈ dropDuplicatesAux l seen → p ∈ l ∧ p.2 ∉ seen := by
  intro l
  induction l with
  | nil => intro seen p hp; simp [dropDuplicatesAux] at hp
  | cons q ps ih =>
    intro seen p hp
    by_cases h : q.2 ∈ seen
    · simp only [dropDuplicatesAux] at hp
      rw [if_pos h] at hp
      obtain ⟨h1, h2⟩ := ih seen p hp
      exact ⟨List.mem_cons_of_mem q h1, h2⟩
    · simp only [dropDuplicatesAux] at hp
      rw [if_neg h] at hp
      rcases List.mem_cons.mp hp with rfl | hp2
      · exact ⟨List.mem_cons_self _ _, h⟩
      · obtain ⟨h1, h2⟩ := ih (q.2 :: seen) p hp2
        refine ⟨List.mem_cons_of_mem q h1, fun hc => h2 ?_⟩
        exact List.mem_cons_of_mem _ hc

/-- Every entry the deduplication keeps is the first entry of the input
carrying its value. -/
theorem find_of_mem_dropDuplicatesAux :
    ∀ (l : List (Nat × Int)) (seen : List Int) (p : Nat × Int),
      p ∈ dropDuplicatesAux l seen →
      l.find? (fun q => q.2 == p.2) = some p := by
  intro l
  induction l with
  | nil => intro seen p hp; simp [dropDuplicatesAux] at hp
  | cons q ps ih =>
    intro seen p hp
    by_cases h : q.2 ∈ seen
    · simp only [dropDuplicatesAux] at hp
      rw [if_pos h] at hp
      have hps := mem_dropDuplicatesAux ps seen p hp
      have hfalse : (q.2 == p.2) = false :=
        beq_false_of_ne (fun hqp => hps.2 (hqp ▸ h))
      simp only [List.find?_cons, hfalse, cond_false]
      exact ih seen p hp
    · simp only [dropDuplicatesAux] at hp
      rw [if_neg h] at hp
      rcases List.mem_cons.mp hp with rfl | hp2
      · simp [List.find?_cons]
      · have hps := mem_dropDuplicatesAux ps (q.2 :: seen) p hp2
        have hfalse : (q.2 == p.2) = false :=
          beq_false_of_ne (fun hqp => hps.2 (hqp ▸ List.mem_cons_self _ _))
        simp only [List.find?_cons, hfalse, cond_false]
        exact ih (q.2 :: seen) p hp2

/-- The values of the deduplicated list are pairwise distinct. -/
theorem nodup_map_snd_dropDuplicatesAux :
    ∀ (l : List (Nat × Int)) (seen : List Int),
      ((dropDuplicatesAux l seen).map Prod.snd).Nodup := by
  intro l
  induction l with
  | nil => intro seen; simp [dropDuplicatesAux]
  | cons q ps ih =>
    intro seen
    by_cases h : q.2 ∈ seen
    · simp only [dropDuplicatesAux]
      rw [if_pos h]
      exact ih seen
    · simp only [dropDuplicatesAux]
      rw [if_neg h]
      simp only [List.map_cons, List.nodup_cons]
      refine ⟨fun hmem => ?_, ih (q.2 :: seen)⟩
      rcases List.mem_map.mp hmem with ⟨p, hp, hpq⟩
      exact (mem_dropDuplicatesAux ps (q.2 :: seen) p hp).2
        (hpq ▸ List.mem_cons_self _ _)

/-- The deduplicated thresholded sequence satisfies the per-metric spec. -/
theorem filteredMetricSpec_dropDuplicates (θ : Int) (l : List (Nat × Int))
    (h : ∀ p ∈ l, θ ≤ p.2) : filteredMetricSpec θ l (dropDuplicates l) := by
  refine ⟨?_, dropDuplicatesAux_sublist l [], ?_, nodup_map_snd_dropDuplicatesAux l []⟩
  · intro p hp
    exact h p (mem_dropDuplicatesAux l [] p hp).1
  · intro p hp
    exact find_of_mem_dropDuplicatesAux l [] p hp

/-- An entry of a thresholded series meets the threshold and carries the
date of an aggregated row. -/
theorem mem_thresholdSeries :
    ∀ (f : Agg4 → Int) (l : List Agg4) (θ : Int) (p : Nat × Int),
      p ∈ thresholdSeries f l θ → θ ≤ p.2 ∧ ∃ a ∈ l, p.1 = a.date := by
  intro f l θ p hp
  simp only [thresholdSeries, List.mem_map, List.mem_filter] at hp
  obtain ⟨a, ⟨hal, hθ⟩, rfl⟩ := hp
  exact ⟨of_decide_eq_true hθ, a, hal, rfl⟩

/-- Membership through the sorted insertion of a date. -/
theorem mem_insertDate :
    ∀ (x : Nat) (l : List Nat) (d : Nat), d ∈ insertDate x l → d = x ∨ d ∈ l := by
  intro x l
  induction l with
  | nil =>
    intro d hd
    simp only [insertDate, List.mem_singleton] at hd
    exact Or.inl hd
  | cons y ys ih =>
    intro d hd
    simp only [insertDate] at hd
    by_cases h1 : x = y
    · rw [if_pos h1] at hd
      exact Or.inr hd
    · rw [if_neg h1] at hd
      by_cases h2 : x < y
      · rw [if_pos h2] at hd
        rcases List.mem_cons.mp hd with rfl | hd2
        · exact Or.inl rfl
        · exact Or.inr hd2
      · rw [if_neg h2] at hd
        rcases List.mem_cons.mp hd with rfl | hd2
        · exact Or.inr (List.mem_cons_self _ _)
        · rcases ih d hd2 with h | h
          · exact Or.inl h
          · exact Or.inr (List.mem_cons_of_mem _ h)

/-- The group keys of `groupby('Date')` are dates of the table. -/
theorem mem_sortedDates :
    ∀ (t : Table) (d : Nat), d ∈ sortedDates t → ∃ r ∈ t, r.date = d := by
  have key : ∀ (L : List Nat) (d : Nat), d ∈ L.foldr insertDate [] → d ∈ L := by
    intro L
    induction L with
    | nil => intro d hd; simp at hd
    | cons x xs ih =>
      intro d hd
      simp only [List.foldr_cons] at hd
      rcases mem_insertDate x _ d hd with rfl | hd2
      · exact List.mem_cons_self _ _
      · exact List.mem_cons_of_mem _ (ih d hd2)
  intro t d hd
  have := key (t.map Row.date) d hd
  rcases List.mem_map.mp this with ⟨r, hr, hrd⟩
  exact ⟨r, hr, hrd⟩

/-- The country filter only removes rows. -/
theorem mem_applyCountryFilter :
    ∀ (c : Option String) (t : Table) (r : Row),
      r ∈ applyCountryFilter c t → r ∈ t := by
  intro c t r h
  unfold applyCountryFilter at h
  by_cases hc : countryTruthy c = true
  · rw [if_pos hc] at h
    exact (List.mem_filter.mp h).1
  · rw [if_neg hc] at h
    exact h

/-- Every aggregated row's date is the date of some input row. -/
theorem date_of_mem_aggregate :
    ∀ (t : Table) (c : Option String) (a : Agg4),
      a ∈ aggregate t c → ∃ r ∈ t, r.date = a.date := by
  intro t c a h
  simp only [aggregate, groupbySum, List.map_map, List.mem_map] at h
  obtain ⟨d, hd, rfl⟩ := h
  obtain ⟨r, hr, hrd⟩ := mem_sortedDates _ _ hd
  exact ⟨r, mem_applyCountryFilter _ _ _ hr, by simpa [addActive] using hrd⟩

/-- Assignment with a key that is not in the index appends a final entry. -/
theorem setItem_of_fresh :
    ∀ (s : Series) (d : Nat) (v : Int),
      (∀ p ∈ s, p.1 ≠ d) → setItem s d v = s ++ [(d, v)] := by
  intro s d v h
  unfold setItem
  rw [if_neg]
  intro hc
  rcases List.any_eq_true.mp hc with ⟨p, hp, hpd⟩
  exact h p hp (by simpa using hpd)

/-! ### Claim theorems -/

/-- C2: for every table, region filter and threshold vector, each of the
three series `clean_data` returns contains only values meeting that
metric's threshold, retains only the first occurrence of each value in the
original (date-ascending) order, and drops every later occurrence; and the
value sequence [10, 10, 20, 30, 30] with threshold 0 filters to
[10, 20, 30], each value keeping its first occurrence's date. -/
theorem clean_data_threshold_dedup :
    ∀ (t : Table) (c : Option String) (θ : Int × Int × Int) (now : Nat),
      (filteredMetricSpec θ.1 (thresholdSeries Agg4.confirmed (aggregate t c) θ.1)
          (clean_data t c (some θ) none now).1 ∧
        filteredMetricSpec θ.2.1 (thresholdSeries Agg4.deaths (aggregate t c) θ.2.1)
          (clean_data t c (some θ) none now).2.1 ∧
        filteredMetricSpec θ.2.2 (thresholdSeries Agg4.active (aggregate t c) θ.2.2)
          (clean_data t c (some θ) none now).2.2) ∧
      (clean_data dupTable none (some (0, 0, 0)) none 99).1 =
        [(0, 10), (2, 20), (3, 30)] := by
  intro t c θ now
  refine ⟨⟨?_, ?_, ?_⟩, by decide⟩ <;>
    exact filteredMetricSpec_dropDuplicates _ _
      (fun p hp => (mem_thresholdSeries _ _ _ p hp).1)

/-- C3: every row of the aggregated table `clean_data` builds its series
from carries Active equal to Confirmed minus Deaths minus Recovered of the
per-date sums, computed after aggregation and before threshold/dedup. -/
theorem clean_data_active_derivation :
    ∀ (t : Table) (c : Option String) (a : Agg4), a ∈ aggregate t c →
      a.active = a.confirmed - a.deaths - a.recovered ∧
      a.active =
        sumAt Row.confirmed (applyCountryFilter c t) a.date -
          sumAt Row.deaths (applyCountryFilter c t) a.date -
          sumAt Row.recovered (applyCountryFilter c t) a.date := by
  intro t c a h
  simp only [aggregate, groupbySum, List.map_map, List.mem_map] at h
  obtain ⟨d, _, rfl⟩ := h
  exact ⟨rfl, rfl⟩

/-- C3 witness at a concrete table: the global aggregate of the two-region
table has, at date 1, Active 15 = 15 − 0 − 0. -/
theorem clean_data_active_derivation_witness :
    (Agg4.mk 1 15 0 0 15).active =
        (Agg4.mk 1 15 0 0 15).confirmed - (Agg4.mk 1 15 0 0 15).deaths -
          (Agg4.mk 1 15 0 0 15).recovered ∧
      (Agg4.mk 1 15 0 0 15).active =
        sumAt Row.confirmed (applyCountryFilter none twoRegionTable) 1 -
          sumAt Row.deaths (applyCountryFilter none twoRegionTable) 1 -
          sumAt Row.recovered (applyCountryFilter none twoRegionTable) 1 :=
  clean_data_active_derivation twoRegionTable none (Agg4.mk 1 15 0 0 15) (by decide)

/-- C4: a non-empty region label restricts the reduction to the rows whose
Country equals that label (then grouped by date and summed), while an
omitted region sums across all regions per date; on the two-region
scenario table, region A yields confirmed values 10, 20, 30 per date and
the global reduction yields 15, 35, 55. -/
theorem clean_data_region_filter :
    ∀ (t : Table) (s : String), s ≠ "" →
      (aggregate t (some s) =
          aggregate (t.filter (fun r => r.country == s)) none ∧
        ∀ (θ lm : Option (Int × Int × Int)) (now : Nat),
          clean_data t (some s) θ lm now =
            clean_data (t.filter (fun r => r.country == s)) none θ lm now) ∧
      ((clean_data twoRegionTable (some "A") none none 9).1 =
          [(1, 10), (2, 20), (3, 30)] ∧
        (clean_data twoRegionTable none none none 9).1 =
          [(1, 15), (2, 35), (3, 55)]) := by
  intro t s hs
  have hagg : aggregate t (some s) =
      aggregate (t.filter (fun r => r.country == s)) none := by
    simp [aggregate, applyCountryFilter, countryTruthy, hs]
  refine ⟨⟨hagg, fun θ lm now => ?_⟩, by decide, by decide⟩
  simp only [clean_data]
  rw [hagg]

/-- C4 witness: instantiated at the two-region scenario table with region
label A. -/
theorem clean_data_region_filter_witness :
    (aggregate twoRegionTable (some "A") =
        aggregate (twoRegionTable.filter (fun r => r.country == "A")) none ∧
      ∀ (θ lm : Option (Int × Int × Int)) (now : Nat),
        clean_data twoRegionTable (some "A") θ lm now =
          clean_data (twoRegionTable.filter (fun r => r.country == "A")) none θ lm now) ∧
    ((clean_data twoRegionTable (some "A") none none 9).1 =
        [(1, 10), (2, 20), (3, 30)] ∧
      (clean_data twoRegionTable none none none 9).1 =
        [(1, 15), (2, 35), (3, 55)]) :=
  clean_data_region_filter twoRegionTable "A" (by decide)

/-- C5: when a manual 3-tuple (confirmed, deaths, recovered) is supplied
and the current timestamp is not a date of the table, `clean_data` returns
exactly the three series of the run without the manual point, each with
one final appended entry: the confirmed value, the deaths value, and
confirmed − deaths − recovered, verbatim, with no threshold or duplicate
check applied. -/
theorem clean_data_lastminute_append :
    ∀ (t : Table) (c : Option String) (θ : Option (Int × Int × Int))
      (cf dt rc : Int) (now : Nat),
      (∀ r ∈ t, r.date ≠ now) →
      clean_data t c θ (some (cf, dt, rc)) now =
        ((clean_data t c θ none now).1 ++ [(now, cf)],
          (clean_data t c θ none now).2.1 ++ [(now, dt)],
          (clean_data t c θ none now).2.2 ++ [(now, cf - dt - rc)]) := by
  intro t c θ cf dt rc now h
  have hfresh : ∀ (f : Agg4 → Int) (θi : Int) (p : Nat × Int),
      p ∈ dropDuplicates (thresholdSeries f (aggregate t c) θi) → p.1 ≠ now := by
    intro f θi p hp
    have hp2 := (mem_dropDuplicatesAux _ _ _ hp).1
    obtain ⟨_, a, ha, hpa⟩ := mem_thresholdSeries f _ θi p hp2
    obtain ⟨r, hr, hrd⟩ := date_of_mem_aggregate t c a ha
    rw [hpa, ← hrd]
    exact h r hr
  simp only [clean_data]
  rw [setItem_of_fresh _ _ _ (hfresh Agg4.confirmed _),
    setItem_of_fresh _ _ _ (hfresh Agg4.deaths _),
    setItem_of_fresh _ _ _ (hfresh Agg4.active _)]

/-- C5 witness: appending the manual point (40, 2, 3) to region A of the
scenario table at fresh timestamp 9 appends (9, 40), (9, 2) and (9, 35). -/
theorem clean_data_lastminute_append_witness :
    clean_data twoRegionTable (some "A") none (some (40, 2, 3)) 9 =
      ((clean_data twoRegionTable (some "A") none none 9).1 ++ [(9, 40)],
        (clean_data twoRegionTable (some "A") none none 9).2.1 ++ [(9, 2)],
        (clean_data twoRegionTable (some "A") none none 9).2.2 ++ [(9, 40 - 2 - 3)]) :=
  clean_data_lastminute_append twoRegionTable (some "A") none 40 2 3 9 (by decide)

/-- C8: omitting the thresholds argument behaves exactly as thresholds
(0, 0, 0): no thresholding by default. -/
theorem clean_data_default_threshold :
    ∀ (t : Table) (c : Option String) (lm : Option (Int × Int × Int)) (now : Nat),
      clean_data t c none lm now = clean_data t c (some (0, 0, 0)) lm now := by
  intro t c lm now
  rfl

/-- C9: replaying `clean_data` with explicit object identity, the caller's
table object (heap address 0) is unchanged by the call — the in-place
column assignment of line 54 hits the freshly allocated groupby result —
and the heap replay returns the same three series as the pure pipeline. -/
theorem clean_data_preserves_input :
    ∀ (t : Table) (c : Option String) (θ lm : Option (Int × Int × Int)) (now : Nat),
      (clean_data_heap t c θ lm now).1.head? = some (DFObj.raw t) ∧
      (clean_data_heap t c θ lm now).2 = clean_data t c θ lm now := by
  intro t c θ lm now
  cases lm <;> cases hc : countryTruthy c <;>
    refine ⟨?_, ?_⟩ <;>
      simp [clean_data_heap, clean_data, aggregate, applyCountryFilter, hc,
        alloc, rawAt, aggAt, agg4At, List.getD]

/-- C10: the empty string as region label is falsy in Python, so it is
treated exactly like the omitted region: the global per-date sum, not the
empty series of a region literally named by the empty string. -/
theorem clean_data_empty_country_global :
    ∀ (t : Table) (θ lm : Option (Int × Int × Int)) (now : Nat),
      clean_data t (some "") θ lm now = clean_data t none θ lm now := by
  intro t θ lm now
  rfl

/-- C1: when the arguments pass scipy's validation and the optimizer
returns a box-constrained minimizer of the sum of squared residuals over
the model evaluated at the integer day-offsets 0..n-1 (which is what
`curve_fit` computes), `fit` returns exactly that parameter vector: it
lies in the box and minimizes the sum of squared residuals against the
series values among all vectors in the box. -/
theorem fit_minimizes_sse :
    ∀ (opt : Optimizer) (values : List (Nat × ℚ)) (model : Model)
      (lb ub : List ℚ) (guess : Option (List ℚ)) (route title : String),
      boundsOk lb ub = true →
      guessOk lb ub guess = true →
      inBox (opt model (fitDays values) (values.map Prod.snd) lb ub guess) lb ub = true →
      (∀ q, inBox q lb ub = true →
        sse model (fitDays values) (values.map Prod.snd)
            (opt model (fitDays values) (values.map Prod.snd) lb ub guess) ≤
          sse model (fitDays values) (values.map Prod.snd) q) →
      ∃ p, (fit opt values model lb ub guess route title).1 = Except.ok p ∧
        inBox p lb ub = true ∧
        ∀ q, inBox q lb ub = true →
          sse model (fitDays values) (values.map Prod.snd) p ≤
            sse model (fitDays values) (values.map Prod.snd) q := by
  intro opt values model lb ub guess route title hb hg hbox hmin
  refine ⟨opt model (fitDays values) (values.map Prod.snd) lb ub guess,
    ?_, hbox, hmin⟩
  simp [fit, curve_fit, hb, hg]

/-- C1 witness: fitting the constant model to the one-point series
[(0, 0)] in the box [0, 1] with an optimizer returning [0] yields [0],
which is in the box and minimizes the squared residual. -/
theorem fit_minimizes_sse_witness :
    ∃ p, (fit zeroOpt [(0, (0 : ℚ))] constModel [0] [1] none
        "figures\\" "Model").1 = Except.ok p ∧
      inBox p [0] [1] = true ∧
      ∀ q, inBox q [0] [1] = true →
        sse constModel (fitDays [(0, (0 : ℚ))]) ([(0, (0 : ℚ))].map Prod.snd) p ≤
          sse constModel (fitDays [(0, (0 : ℚ))]) ([(0, (0 : ℚ))].map Prod.snd) q :=
  fit_minimizes_sse zeroOpt [(0, 0)] constModel [0] [1] none "figures\\" "Model"
    (by decide) (by decide) (by decide)
    (by
      intro q hq
      simp [sse, constModel, fitDays, zeroOpt, List.range_succ, List.range_zero]
      positivity)

/-- C7: when some lower bound exceeds its upper bound, or a supplied
initial guess lies outside the bounds, `fit` surfaces scipy's ValueError
raised before any optimization step, and writes no output image. -/
theorem fit_invalid_config_no_output :
    ∀ (opt : Optimizer) (values : List (Nat × ℚ)) (model : Model)
      (lb ub : List ℚ) (guess : Option (List ℚ)) (route title : String),
      ((lb.zip ub).any (fun p => decide (p.2 < p.1)) = true ∨
        (∃ g, guess = some g ∧
          (g.zip (lb.zip ub)).any
            (fun x => decide (x.1 < x.2.1) || decide (x.2.2 < x.1)) = true)) →
      (∃ msg, (fit opt values model lb ub guess route title).1 =
        Except.error (FitError.valueError msg)) ∧
      (fit opt values model lb ub guess route title).2 = [] := by
  intro opt values model lb ub guess route title h
  rcases h with hbad | ⟨g, rfl, hbad⟩
  · have hb : boundsOk lb ub = false := by
      rcases List.any_eq_true.mp hbad with ⟨p, hp, hplt⟩
      have hlt : p.2 < p.1 := of_decide_eq_true hplt
      cases hall : (lb.zip ub).all (fun p => decide (p.1 < p.2))
      · simp [boundsOk, hall]
      · exact absurd (of_decide_eq_true (List.all_eq_true.mp hall p hp))
          (lt_asymm hlt)
    exact ⟨⟨"Each lower bound must be strictly less than each upper bound.",
      by simp [fit, curve_fit, hb]⟩, by simp [fit, curve_fit, hb]⟩
  · have hg : guessOk lb ub (some g) = false := by
      rcases List.any_eq_true.mp hbad with ⟨x, hx, hxb⟩
      cases hall : (g.zip (lb.zip ub)).all
          (fun x => decide (x.2.1 ≤ x.1) && decide (x.1 ≤ x.2.2))
      · simp [guessOk, hall]
      · exfalso
        have hx3 := Bool.and_eq_true_iff.mp (List.all_eq_true.mp hall x hx)
        rcases Bool.or_eq_true_iff.mp hxb with h1 | h1
        · exact absurd (of_decide_eq_true hx3.1) (not_le.mpr (of_decide_eq_true h1))
        · exact absurd (of_decide_eq_true hx3.2) (not_le.mpr (of_decide_eq_true h1))
    by_cases hb : boundsOk lb ub = true
    · exact ⟨⟨"x0 is infeasible", by simp [fit, curve_fit, hb, hg]⟩,
        by simp [fit, curve_fit, hb, hg]⟩
    · have hb2 : boundsOk lb ub = false := by
        cases hval : boundsOk lb ub
        · rfl
        · exact absurd hval hb
      exact ⟨⟨"Each lower bound must be strictly less than each upper bound.",
        by simp [fit, curve_fit, hb2]⟩, by simp [fit, curve_fit, hb2]⟩

/-- C7 witness: bounds with lower 1 above upper 0 make `fit` surface a
ValueError and write nothing. -/
theorem fit_invalid_config_no_output_witness :
    (∃ msg, (fit zeroOpt [(0, (0 : ℚ))] constModel [1] [0] none
        "figures\\" "Model").1 = Except.error (FitError.valueError msg)) ∧
      (fit zeroOpt [(0, (0 : ℚ))] constModel [1] [0] none
        "figures\\" "Model").2 = [] :=
  fit_invalid_config_no_output zeroOpt [(0, 0)] constModel [1] [0] none
    "figures\\" "Model" (Or.inl (by decide))

/-- C6 counterexample: a source with a sixth column keeps it after the
rename, so the table `get_data` returns does not have exactly the five
columns Date, Country, Confirmed, Deaths, Recovered. -/
theorem get_data_columns_not_exactly_five :
    get_data_columns
        ["Date", "Country", "Confirmed", "Deaths", "Recovered", "Province/State"]
        defaultLabels ≠
      ["Date", "Country", "Confirmed", "Deaths", "Recovered"] := by
  decide

/-- C6 amended: the table `get_data` returns has the source's columns with
the five mapped labels renamed to Date, Country, Confirmed, Deaths,
Recovered; every non-mapped source column is retained unchanged (the
column count is preserved), so the result has exactly the five columns
only when the source's columns are exactly the five mapped labels. -/
theorem get_data_columns_rename_behavior :
    ∀ (src : List String) (L : Labels),
      ((get_data_columns src L).length = src.length ∧
        ∀ s ∈ src,
          s ∉ [L.date, L.country, L.confirmed, L.deaths, L.recovered] →
          s ∈ get_data_columns src L) ∧
      ([L.date, L.country, L.confirmed, L.deaths, L.recovered].Nodup →
        get_data_columns [L.date, L.country, L.confirmed, L.deaths, L.recovered] L =
          ["Date", "Country", "Confirmed", "Deaths", "Recovered"]) := by
  intro src L
  refine ⟨⟨by simp [get_data_columns], ?_⟩, ?_⟩
  · intro s hs hnot
    simp only [List.mem_cons, List.not_mem_nil, or_false, not_or] at hnot
    obtain ⟨h1, h2, h3, h4, h5⟩ := hnot
    have hkeep : renameColumn L s = s := by
      simp [renameColumn, h1, h2, h3, h4, h5]
    exact hkeep ▸ List.mem_map_of_mem (renameColumn L) hs
  · intro hnd
    simp only [List.nodup_cons, List.mem_cons, List.not_mem_nil, or_false,
      not_or, List.nodup_nil, and_true] at hnd
    obtain ⟨⟨hdc, hdcf, hdd, hdr⟩, ⟨hccf, hcd, hcr⟩, ⟨hcfd, hcfr⟩, hddr, -⟩ := hnd
    simp [get_data_columns, renameColumn, hdc, hdcf, hdd, hdr, hccf, hcd, hcr,
      hcfd, hcfr, hddr, Ne.symm hdc, Ne.symm hdcf, Ne.symm hdd, Ne.symm hdr,
      Ne.symm hccf, Ne.symm hcd, Ne.symm hcr, Ne.symm hcfd, Ne.symm hcfr,
      Ne.symm hddr]

end Covid19
